import Mathlib

/-!
# Verification of the munin firmware core

Shallow embedding of the core logic of the munin repository:

* `face_from_avg`, `imu_add_sample`, `imu_get_average`, `munin_imu_init`,
  `munin_imu_update` — from `zephyr_workspace/munin_app/src/imu.c`
  (the iteration cited by the specification).
* `munin_protocol_create_packet`, `munin_protocol_send_packet` — from
  `munin_zephyr/src/munin_protocol.c`.
* `ble_connected` — the connection callback from `munin_zephyr/src/ble.c`.

Conventions: C `float` values are embedded as `ℚ`; C unsigned integers as
`ℕ` with explicit `% 2 ^ w` where a narrowing conversion occurs in the
source; `int64_t` timestamps as `ℤ` with C truncating division written
`Int.div` and the `(uint32_t)` conversion written `Int.emod _ (2 ^ 32)`.
Fallible sensor reads are embedded as `Option` inputs; the BLE notify
result (success/failure of `munin_ble_notify_face`) as a `Bool` input.
-/

/-- Classifier thresholds from `imu.c`:
`IMU_MIN_AXIS_G 0.55f` and `IMU_AXIS_MARGIN_G 0.18f`. -/
def IMU_MIN_AXIS_G : ℚ := 55 / 100

/-- Dominance margin over the next axis, `IMU_AXIS_MARGIN_G 0.18f`. -/
def IMU_AXIS_MARGIN_G : ℚ := 18 / 100

/-- `FACE_SETTLE_TIME_MS 1500` from `imu.c`. -/
def FACE_SETTLE_TIME_MS : ℤ := 1500

/-- `IMU_SAMPLE_INTERVAL_MS 180` from `imu.c`. -/
def IMU_SAMPLE_INTERVAL_MS : ℤ := 180

/-- `IMU_SMOOTH_WINDOW 6` from `imu.c`. -/
def IMU_SMOOTH_WINDOW : ℕ := 6

/-- `face_from_avg` from `imu.c` lines 53-67.  Maps the smoothed vector to a
face id 1..6, or 0 when the signal is too weak or two axes are too close.
The source initialises `max2 = -1.f`, but both branches of the first
comparison overwrite it, so the initial value never reaches a use; each
C assignment chain is rendered as the corresponding conditional below.
`max1x/max2x/idxx` are the values of `max1/max2/idx` after line 58,
`max1/max2/idx` their values after line 59. -/
def face_from_avg (x y z : ℚ) : ℕ :=
  let ax := |x|
  let ay := |y|
  let az := |z|
  let max1x := if ay > ax then ay else ax
  let max2x := if ay > ax then ax else ay
  let idxx : ℕ := if ay > ax then 1 else 0
  let max1 := if az > max1x then az else max1x
  let max2 := if az > max1x then max1x else if az > max2x then az else max2x
  let idx : ℕ := if az > max1x then 2 else idxx
  if max1 < IMU_MIN_AXIS_G then 0
  else if max1 - max2 < IMU_AXIS_MARGIN_G then 0
  else if idx = 0 then (if x > 0 then 1 else 2)
  else if idx = 1 then (if y > 0 then 3 else 4)
  else (if z > 0 then 5 else 6)

/-- The smoothing ring buffer of `imu.c`: arrays `hist_x/hist_y/hist_z` of
size `IMU_SMOOTH_WINDOW`, write index `hist_index` and fill count
`hist_count`.  The arrays are embedded as lists of length 6 (statics are
zero-initialised in C). -/
structure SmoothWindow where
  hist_x : List ℚ
  hist_y : List ℚ
  hist_z : List ℚ
  hist_index : ℕ
  hist_count : ℕ
  deriving Repr, DecidableEq

/-- The zero-initialised smoothing state (C statics start at zero). -/
def SmoothWindow.init : SmoothWindow :=
  { hist_x := List.replicate IMU_SMOOTH_WINDOW 0
    hist_y := List.replicate IMU_SMOOTH_WINDOW 0
    hist_z := List.replicate IMU_SMOOTH_WINDOW 0
    hist_index := 0
    hist_count := 0 }

/-- `imu_add_sample` from `imu.c` lines 37-42: write at `hist_index`,
advance the index modulo the window size, saturate the count. -/
def imu_add_sample (w : SmoothWindow) (x y z : ℚ) : SmoothWindow :=
  { hist_x := w.hist_x.set w.hist_index x
    hist_y := w.hist_y.set w.hist_index y
    hist_z := w.hist_z.set w.hist_index z
    hist_index := (w.hist_index + 1) % IMU_SMOOTH_WINDOW
    hist_count := if w.hist_count < IMU_SMOOTH_WINDOW then w.hist_count + 1
                  else w.hist_count }

/-- `imu_get_average` from `imu.c` lines 44-50: mean of the first
`hist_count` entries, or the zero vector when the buffer is empty. -/
def imu_get_average (w : SmoothWindow) : ℚ × ℚ × ℚ :=
  let sx := (w.hist_x.take w.hist_count).sum
  let sy := (w.hist_y.take w.hist_count).sum
  let sz := (w.hist_z.take w.hist_count).sum
  if w.hist_count = 0 then (0, 0, 0)
  else (sx / w.hist_count, sy / w.hist_count, sz / w.hist_count)

/-- The settle/session state of `imu.c`: statics `s_face`, `s_candidate`,
`s_candidate_since`, `s_session_start`, plus the function-local static
`last_logged` of `munin_imu_update` (the heartbeat deduplication marker). -/
structure SettleState where
  face : ℕ
  candidate : ℕ
  candidate_since : ℤ
  session_start : ℤ
  last_logged : ℕ
  deriving Repr, DecidableEq

/-- Observable outputs of the core: a BLE face-characteristic notification
(`munin_ble_notify_face`) or a 6-byte protocol packet
(`munin_protocol_create_packet` + `munin_protocol_send_packet`),
recorded here as its (kind, seconds, payload) fields. -/
inductive MuninEvent where
  | faceNotify (face : ℕ)
  | packet (kind : ℕ) (seconds : ℕ) (payload : ℕ)
  deriving Repr, DecidableEq

/-- The spec's "face-switch event carrying id `f`": either a successful BLE
face notification or the fallback `MUNIN_EVENT_FACE_SWITCH` (0x01) packet,
as emitted at the commit site in `munin_imu_update`. -/
def MuninEvent.isFaceSwitch : MuninEvent → Bool
  | .faceNotify _ => true
  | .packet kind _ _ => kind = 1

/-- The settle state machine of `munin_imu_update`, `imu.c` lines 195-241,
evaluated on the freshly smoothed average `(ax, ay, az)` at time `now`.
`notifyOk` is whether `munin_ble_notify_face` succeeds (returns ≥ 0).
Returns the new state and the emitted events.  The inner
`detected == face_from_avg(ax, ay, az)` re-check of line 206 is kept
verbatim (it recomputes the same pure function on the same arguments). -/
def settleStep (st : SettleState) (now : ℤ) (ax ay az : ℚ) (notifyOk : Bool) :
    SettleState × List MuninEvent :=
  let detected := face_from_avg ax ay az
  if detected ≠ 0 then
    if detected ≠ st.face then
      if detected ≠ st.candidate then
        ({ st with candidate := detected, candidate_since := now }, [])
      else if now - st.candidate_since ≥ FACE_SETTLE_TIME_MS then
        if detected = face_from_avg ax ay az then
          let st' := { st with face := st.candidate, session_start := now }
          (st', [if notifyOk then MuninEvent.faceNotify st'.face
                 else MuninEvent.packet 1 0 st'.face])
        else (st, [])
      else (st, [])
    else
      ({ st with candidate := st.face, candidate_since := now }, [])
  else (st, [])

/-- `delta_s` of `imu.c` line 243: `(uint32_t)((now - s_session_start)/1000)`
with C truncating `int64_t` division and conversion to `uint32_t`. -/
def session_delta_s (session_start now : ℤ) : ℕ :=
  (((now - session_start).tdiv 1000).emod (2 ^ 32)).toNat

/-- The heartbeat logic of `munin_imu_update`, `imu.c` lines 243-252: emit
an `MUNIN_EVENT_ONGOING_LOG` (0x02) packet when the elapsed seconds are a
non-zero multiple of 60 not equal to the static `last_logged` marker. -/
def heartbeatStep (st : SettleState) (now : ℤ) : SettleState × List MuninEvent :=
  let delta_s := session_delta_s st.session_start now
  if delta_s ≠ 0 ∧ delta_s % 60 = 0 then
    if delta_s ≠ st.last_logged then
      ({ st with last_logged := delta_s }, [MuninEvent.packet 2 delta_s st.face])
    else (st, [])
  else (st, [])

/-- One classified tick of `munin_imu_update` (`imu.c` lines 195-252):
the settle machine followed by the heartbeat check. -/
def imuTick (st : SettleState) (now : ℤ) (ax ay az : ℚ) (notifyOk : Bool) :
    SettleState × List MuninEvent :=
  let s1 := settleStep st now ax ay az notifyOk
  let s2 := heartbeatStep s1.1 now
  (s2.1, s1.2 ++ s2.2)

/-- Input of one settle-level tick: the time and the smoothed average
that `munin_imu_update` computes on that tick, plus the BLE notify
outcome. -/
structure SettleTick where
  now : ℤ
  ax : ℚ
  ay : ℚ
  az : ℚ
  notifyOk : Bool
  deriving Repr, DecidableEq

/-- Run `imuTick` over a list of ticks, collecting all emitted events. -/
def runSettle (st : SettleState) : List SettleTick → SettleState × List MuninEvent
  | [] => (st, [])
  | t :: rest =>
    let s1 := imuTick st t.now t.ax t.ay t.az t.notifyOk
    let s2 := runSettle s1.1 rest
    (s2.1, s1.2 ++ s2.2)

/-- Full per-call state of the `imu.c` module: the settle/session state,
the smoothing window, and the function-local static `last` used by the
sample-rate gate of `munin_imu_update`. -/
structure ImuState where
  settle : SettleState
  window : SmoothWindow
  last : ℤ
  deriving Repr, DecidableEq

/-- `munin_imu_update` from `imu.c` lines 150-253.  `reading` is the result
of `sensor_sample_fetch`/`sensor_channel_get` (`none` = either call failed,
in which case lines 161-175 return with no further effect); `notifyOk` is
whether `munin_ble_notify_face` would succeed.  The `debug_counter` static
and the `printk`/`MLOG` logging affect no modelled state and are omitted,
as is the LED flash (`munin_led_face_flash`, an excluded collaborator). -/
def munin_imu_update (st : ImuState) (now : ℤ) (reading : Option (ℚ × ℚ × ℚ))
    (notifyOk : Bool) : ImuState × List MuninEvent :=
  if now - st.last < IMU_SAMPLE_INTERVAL_MS then (st, [])
  else
    match reading with
    | none => ({ st with last := now }, [])
    | some (fx, fy, fz) =>
      let w := imu_add_sample st.window fx fy fz
      let avg := imu_get_average w
      let s := imuTick st.settle now avg.1 avg.2.1 avg.2.2 notifyOk
      ({ settle := s.1, window := w, last := now }, s.2)

/-- `munin_imu_get_current_face` from `imu.c` lines 255-258. -/
def munin_imu_get_current_face (st : ImuState) : ℕ :=
  st.settle.face

/-- The state established by `munin_imu_init` (`imu.c` lines 128-137) once a
reading `(fx, fy, fz)` has been obtained at uptime `now`: the window is
seeded with the first sample repeated `IMU_SMOOTH_WINDOW` times, the face
is classified from the average with fallback 6 when ambiguous, and the
candidate/session timestamps start at `now`.  The statics `last` and
`last_logged` keep their C zero-initialisation.  The BOOT packet emission
(lines 144-146) is not needed by any claim and is left unmodelled.  The
`for` loop of line 131 runs `IMU_SMOOTH_WINDOW` = 6 times and is unrolled
here. -/
def munin_imu_init (fx fy fz : ℚ) (now : ℤ) : ImuState :=
  let w := imu_add_sample (imu_add_sample (imu_add_sample (imu_add_sample
    (imu_add_sample (imu_add_sample SmoothWindow.init fx fy fz)
      fx fy fz) fx fy fz) fx fy fz) fx fy fz) fx fy fz
  let avg := imu_get_average w
  let f0 := face_from_avg avg.1 avg.2.1 avg.2.2
  let f := if f0 = 0 then 6 else f0
  { settle :=
      { face := f, candidate := f, candidate_since := now,
        session_start := now, last_logged := 0 }
    window := w
    last := 0 }

/-- Input of one full `munin_imu_update` call. -/
structure ImuCall where
  now : ℤ
  reading : Option (ℚ × ℚ × ℚ)
  notifyOk : Bool
  deriving Repr, DecidableEq

/-- Run `munin_imu_update` over a list of calls. -/
def runImu (st : ImuState) : List ImuCall → ImuState × List MuninEvent
  | [] => (st, [])
  | c :: rest =>
    let s1 := munin_imu_update st c.now c.reading c.notifyOk
    let s2 := runImu s1.1 rest
    (s2.1, s1.2 ++ s2.2)

/-- `munin_packet_t` from `munin_protocol.h`: `uint8_t event_type`,
`uint32_t delta_s`, `uint8_t face_id` (field values are naturals; the
representability bounds appear as hypotheses of the theorems). -/
structure munin_packet_t where
  event_type : ℕ
  delta_s : ℕ
  face_id : ℕ
  deriving Repr, DecidableEq

/-- `munin_protocol_create_packet` from `munin_protocol.c` lines 8-19
(the packet-pointer null check has no counterpart for a value result). -/
def munin_protocol_create_packet (event_type : ℕ) (delta_s : ℕ) (face_id : ℕ) :
    munin_packet_t :=
  { event_type := event_type, delta_s := delta_s, face_id := face_id }

/-- The 6-byte wire record built by `munin_protocol_send_packet`
(`munin_protocol.c` lines 27-34): byte 0 the event type, bytes 1-4 the
`delta_s` field little-endian (`>> 8k & 0xFF` is `/ 2 ^ 8k % 2 ^ 8`),
byte 5 the face id.  The actual transmission (`munin_ble_send_data`) is
the transport collaborator. -/
def munin_protocol_send_packet (p : munin_packet_t) : List ℕ :=
  [p.event_type,
   p.delta_s % 2 ^ 8,
   p.delta_s / 2 ^ 8 % 2 ^ 8,
   p.delta_s / 2 ^ 16 % 2 ^ 8,
   p.delta_s / 2 ^ 24 % 2 ^ 8,
   p.face_id]

/-- Modelled from the spec: the decoder for the 6-byte wire record is not
part of `src/` (only the encoder is); per the spec it is the exact inverse
of the encoder — byte 0 the kind, bytes 1-4 the seconds little-endian,
byte 5 the payload — and must reject input of the wrong length. -/
def munin_protocol_decode (bytes : List ℕ) : Option (ℕ × ℕ × ℕ) :=
  match bytes with
  | [b0, b1, b2, b3, b4, b5] =>
    some (b0, b1 + 2 ^ 8 * b2 + 2 ^ 16 * b3 + 2 ^ 24 * b4, b5)
  | _ => none

/-- The `connected` callback from `munin_zephyr/src/ble.c` lines 80-101:
on a failed connection (`err ≠ 0`) nothing is sent; on success exactly one
`MUNIN_EVENT_STATE_SYNC` (0x03) packet is sent, with the seconds field
`(uint32_t)(k_uptime_get() / 1000)` and payload
`munin_imu_get_current_face()`. -/
def ble_connected (err : ℕ) (uptime_ms : ℤ) (current_face : ℕ) :
    List MuninEvent :=
  if err ≠ 0 then []
  else [MuninEvent.packet 3 ((uptime_ms.tdiv 1000).emod (2 ^ 32)).toNat
          current_face]

/-! ## Evaluation helpers for concrete classifier inputs -/

/-- `face_from_avg` on the unit +X vector. -/
lemma face_from_avg_unit_x : face_from_avg 1 0 0 = 1 := by
  norm_num [face_from_avg, IMU_MIN_AXIS_G, IMU_AXIS_MARGIN_G, abs_of_pos]

/-- `face_from_avg` on the unit +Y vector. -/
lemma face_from_avg_unit_y : face_from_avg 0 1 0 = 3 := by
  norm_num [face_from_avg, IMU_MIN_AXIS_G, IMU_AXIS_MARGIN_G, abs_of_pos]

/-- `face_from_avg` on the zero vector is ambiguous. -/
lemma face_from_avg_zero : face_from_avg 0 0 0 = 0 := by
  norm_num [face_from_avg, IMU_MIN_AXIS_G, IMU_AXIS_MARGIN_G]

/-! ## C7: the 6-byte wire encoding -/

/-- C7: for every representable event (8-bit kind, 32-bit seconds, 8-bit
payload), the encoder produces exactly 6 bytes: byte 0 the kind, bytes 1-4
the seconds as a little-endian unsigned 32-bit integer (four bytes each
below 256 recombining to the seconds value), byte 5 the payload.  The
encoder is a pure function, hence deterministic. -/
theorem spec_C7 (k s p : ℕ) (hk : k < 2 ^ 8) (hs : s < 2 ^ 32) (hp : p < 2 ^ 8) :
    ∃ b1 b2 b3 b4 : ℕ,
      munin_protocol_send_packet (munin_protocol_create_packet k s p)
        = [k, b1, b2, b3, b4, p]
      ∧ (munin_protocol_send_packet (munin_protocol_create_packet k s p)).length = 6
      ∧ b1 < 2 ^ 8 ∧ b2 < 2 ^ 8 ∧ b3 < 2 ^ 8 ∧ b4 < 2 ^ 8
      ∧ b1 + 2 ^ 8 * b2 + 2 ^ 16 * b3 + 2 ^ 24 * b4 = s := by
  refine ⟨s % 2 ^ 8, s / 2 ^ 8 % 2 ^ 8, s / 2 ^ 16 % 2 ^ 8, s / 2 ^ 24 % 2 ^ 8,
    rfl, rfl, ?_, ?_, ?_, ?_, ?_⟩ <;> omega

/-- Witness for C7 at kind 1, seconds 305419896 = 0x12345678, payload 3. -/
theorem spec_C7_witness :
    1 < 2 ^ 8 ∧ 305419896 < 2 ^ 32 ∧ 3 < 2 ^ 8 ∧
    ∃ b1 b2 b3 b4 : ℕ,
      munin_protocol_send_packet (munin_protocol_create_packet 1 305419896 3)
        = [1, b1, b2, b3, b4, 3]
      ∧ (munin_protocol_send_packet (munin_protocol_create_packet 1 305419896 3)).length = 6
      ∧ b1 < 2 ^ 8 ∧ b2 < 2 ^ 8 ∧ b3 < 2 ^ 8 ∧ b4 < 2 ^ 8
      ∧ b1 + 2 ^ 8 * b2 + 2 ^ 16 * b3 + 2 ^ 24 * b4 = 305419896 :=
  ⟨by decide, by decide, by decide,
   spec_C7 1 305419896 3 (by decide) (by decide) (by decide)⟩

/-! ## C6: decode is the exact inverse of encode -/

/-- C6: decoding the 6-byte record produced by the encoder yields back
exactly the kind, seconds and payload, for all representable values. -/
theorem spec_C6 (k s p : ℕ) (hk : k < 2 ^ 8) (hs : s < 2 ^ 32) (hp : p < 2 ^ 8) :
    munin_protocol_decode
        (munin_protocol_send_packet (munin_protocol_create_packet k s p))
      = some (k, s, p) := by
  simp only [munin_protocol_create_packet, munin_protocol_send_packet,
    munin_protocol_decode, Option.some.injEq, Prod.mk.injEq, true_and, and_true]
  omega

/-- Witness for C6 at kind 16, seconds 305419896, payload 5. -/
theorem spec_C6_witness :
    16 < 2 ^ 8 ∧ 305419896 < 2 ^ 32 ∧ 5 < 2 ^ 8 ∧
    munin_protocol_decode
        (munin_protocol_send_packet (munin_protocol_create_packet 16 305419896 5))
      = some (16, 305419896, 5) :=
  ⟨by decide, by decide, by decide,
   spec_C6 16 305419896 5 (by decide) (by decide) (by decide)⟩

/-! ## C8: sensor read failure skips the tick -/

/-- C8: on a poll tick whose sensor read fails, the accepted face,
candidate, candidate timestamp, session start (all inside `.settle`) and
the smoothing window are unchanged and no event is emitted; the model has
no failure latch, so the next call proceeds as usual. -/
theorem spec_C8 (st : ImuState) (now : ℤ) (notifyOk : Bool) :
    (munin_imu_update st now none notifyOk).1.settle = st.settle
    ∧ (munin_imu_update st now none notifyOk).1.window = st.window
    ∧ (munin_imu_update st now none notifyOk).2 = [] := by
  unfold munin_imu_update
  split <;> simp

/-! ## C9: STATE_SYNC on (re)connection -/

/-- C9: each successful invocation of the BLE `connected` callback (one per
(re)connection) sends exactly one `MUNIN_EVENT_STATE_SYNC` (0x03) packet
whose payload is the current accepted face id; a failed connection sends
nothing. -/
theorem spec_C9 (err : ℕ) (uptime_ms : ℤ) (face : ℕ) :
    (err = 0 → ∃ s, ble_connected err uptime_ms face
        = [MuninEvent.packet 3 s face])
    ∧ (err ≠ 0 → ble_connected err uptime_ms face = []) := by
  constructor
  · intro h
    subst h
    exact ⟨_, rfl⟩
  · intro h
    simp [ble_connected, h]

/-- Witness for C9: a successful connection at uptime 123456 ms with face 4
sends one STATE_SYNC, and a failed connection (err 7) sends nothing. -/
theorem spec_C9_witness :
    (0 = 0 → ∃ s, ble_connected 0 123456 4 = [MuninEvent.packet 3 s 4])
    ∧ ((7:ℕ) ≠ 0 → ble_connected 7 0 2 = []) :=
  ⟨fun h => (spec_C9 0 123456 4).1 h, fun h => (spec_C9 7 0 2).2 h⟩

/-! ## C1: the settle transitions on a disagreeing non-ambiguous tick -/

/-- C1: on a tick whose classification `d` is non-zero and differs from the
accepted face: if `d` also differs from the current candidate, the machine
sets `candidate := d` and restarts the debounce window; otherwise, once
`now - candidate_since ≥ FACE_SETTLE_TIME_MS` (1500 ms), it commits —
`face := candidate`, `session_start := now` — and emits one face-switch
event carrying the new accepted id. -/
theorem spec_C1 (st : SettleState) (now : ℤ) (ax ay az : ℚ) (notifyOk : Bool)
    (d : ℕ) (hd : face_from_avg ax ay az = d) (h0 : d ≠ 0) (hne : d ≠ st.face) :
    (d ≠ st.candidate →
      settleStep st now ax ay az notifyOk
        = ({ st with candidate := d, candidate_since := now }, []))
    ∧ (d = st.candidate → now - st.candidate_since ≥ FACE_SETTLE_TIME_MS →
      settleStep st now ax ay az notifyOk
        = ({ st with face := d, session_start := now },
           [if notifyOk then MuninEvent.faceNotify d
            else MuninEvent.packet 1 0 d])) := by
  constructor
  · intro hc
    simp only [settleStep, hd]
    rw [if_pos h0, if_pos hne, if_pos hc]
  · intro hc hs
    simp only [settleStep, hd]
    rw [if_pos h0, if_pos hne, if_neg (not_not_intro hc), if_pos hs]
    simp [← hc]

/-- Witness for C1: from accepted face 5, a +X classification (face 1) first
becomes the candidate with a fresh timestamp, and from candidate 1 held
since time 0 it commits at time 2000 with one face-switch event. -/
theorem spec_C1_witness :
    face_from_avg 1 0 0 = 1 ∧ (1:ℕ) ≠ 0 ∧ (1:ℕ) ≠ 5 ∧
    settleStep ⟨5, 5, 0, 0, 0⟩ 2000 1 0 0 true = (⟨5, 1, 2000, 0, 0⟩, [])
    ∧ settleStep ⟨5, 1, 0, 0, 0⟩ 2000 1 0 0 true
        = (⟨1, 1, 0, 2000, 0⟩, [MuninEvent.faceNotify 1]) :=
  ⟨face_from_avg_unit_x, by decide, by decide,
   (spec_C1 ⟨5, 5, 0, 0, 0⟩ 2000 1 0 0 true 1 face_from_avg_unit_x
      (by decide) (by decide)).1 (by decide),
   (spec_C1 ⟨5, 1, 0, 0, 0⟩ 2000 1 0 0 true 1 face_from_avg_unit_x
      (by decide) (by decide)).2 rfl (by decide)⟩

/-! ## C4: ambiguous ticks freeze the settle machine -/

/-- An ambiguous classification leaves the settle state untouched and emits
no event (`imu.c` line 195: the whole block is guarded by `detected != 0`). -/
lemma settleStep_ambiguous (st : SettleState) (now : ℤ) (ax ay az : ℚ)
    (ok : Bool) (h : face_from_avg ax ay az = 0) :
    settleStep st now ax ay az ok = (st, []) := by
  simp [settleStep, h]

/-- The heartbeat check never changes the face, candidate, candidate
timestamp or session start (it only updates `last_logged`). -/
lemma heartbeatStep_fields (st : SettleState) (now : ℤ) :
    (heartbeatStep st now).1.face = st.face
    ∧ (heartbeatStep st now).1.candidate = st.candidate
    ∧ (heartbeatStep st now).1.candidate_since = st.candidate_since
    ∧ (heartbeatStep st now).1.session_start = st.session_start := by
  simp only [heartbeatStep]
  split_ifs <;> simp

/-- Over any all-ambiguous tick stream the settle fields never change. -/
lemma runSettle_ambiguous (ticks : List SettleTick) :
    ∀ st : SettleState, (∀ t ∈ ticks, face_from_avg t.ax t.ay t.az = 0) →
    (runSettle st ticks).1.face = st.face
    ∧ (runSettle st ticks).1.candidate = st.candidate
    ∧ (runSettle st ticks).1.candidate_since = st.candidate_since := by
  induction ticks with
  | nil => intro st _; simp [runSettle]
  | cons t rest ih =>
    intro st h
    have ht : face_from_avg t.ax t.ay t.az = 0 := h t (by simp)
    have hrest := fun u hu => h u (List.mem_cons_of_mem _ hu)
    simp only [runSettle, imuTick,
      settleStep_ambiguous st t.now t.ax t.ay t.az t.notifyOk ht]
    obtain ⟨h1, h2, h3, _⟩ := heartbeatStep_fields st t.now
    obtain ⟨g1, g2, g3⟩ := ih (heartbeatStep st t.now).1 hrest
    exact ⟨g1.trans h1, g2.trans h2, g3.trans h3⟩

/-- C4: a tick classified 0 changes nothing in the settle machine, and an
all-ambiguous input stream of any length leaves the accepted face, the
candidate and the frozen debounce timestamp unchanged. -/
theorem spec_C4 (st : SettleState) :
    (∀ (now : ℤ) (ax ay az : ℚ) (ok : Bool), face_from_avg ax ay az = 0 →
      settleStep st now ax ay az ok = (st, []))
    ∧ ∀ ticks : List SettleTick,
      (∀ t ∈ ticks, face_from_avg t.ax t.ay t.az = 0) →
      (runSettle st ticks).1.face = st.face
      ∧ (runSettle st ticks).1.candidate = st.candidate
      ∧ (runSettle st ticks).1.candidate_since = st.candidate_since :=
  ⟨fun now ax ay az ok h => settleStep_ambiguous st now ax ay az ok h,
   fun ticks h => runSettle_ambiguous ticks st h⟩

/-- Witness for C4: an ambiguous tick at time 100 from state
(face 2, candidate 3, since 5) changes nothing, and a two-tick
all-ambiguous stream leaves the fields unchanged. -/
theorem spec_C4_witness :
    face_from_avg 0 0 0 = 0 ∧
    settleStep ⟨2, 3, 5, 7, 0⟩ 100 0 0 0 true = (⟨2, 3, 5, 7, 0⟩, [])
    ∧ ((runSettle ⟨2, 3, 5, 7, 0⟩
          [⟨100, 0, 0, 0, true⟩, ⟨300, 0, 0, 0, false⟩]).1.face = 2
      ∧ (runSettle ⟨2, 3, 5, 7, 0⟩
          [⟨100, 0, 0, 0, true⟩, ⟨300, 0, 0, 0, false⟩]).1.candidate = 3
      ∧ (runSettle ⟨2, 3, 5, 7, 0⟩
          [⟨100, 0, 0, 0, true⟩, ⟨300, 0, 0, 0, false⟩]).1.candidate_since = 5) :=
  ⟨face_from_avg_zero,
   (spec_C4 ⟨2, 3, 5, 7, 0⟩).1 100 0 0 0 true face_from_avg_zero,
   (spec_C4 ⟨2, 3, 5, 7, 0⟩).2
     [⟨100, 0, 0, 0, true⟩, ⟨300, 0, 0, 0, false⟩]
     (by intro t ht; fin_cases ht <;> exact face_from_avg_zero)⟩

/-! ## C2: heartbeats -/

/-- The settle machine never touches the heartbeat marker `last_logged`:
in particular a face-switch commit does not reset it. -/
lemma settleStep_last_logged (st : SettleState) (now : ℤ) (ax ay az : ℚ)
    (ok : Bool) : (settleStep st now ax ay az ok).1.last_logged = st.last_logged := by
  simp only [settleStep]
  split_ifs <;> simp

set_option maxRecDepth 8000 in
/-- C2 (amended): a heartbeat (`ONGOING_LOG`, 0x02) fires exactly when the
elapsed seconds `delta_s` are a positive multiple of 60 differing from the
single persistent `last_logged` marker; the marker is then set to `delta_s`
and is never reset by the settle machine, not even at a session-resetting
commit.  A fresh 185-second stable session (marker 0) produces exactly the
three heartbeats at elapsed 60, 120 and 180 seconds, with repeated ticks at
a multiple deduplicated. -/
theorem spec_C2 :
    (∀ (st : SettleState) (now : ℤ),
      (session_delta_s st.session_start now ≠ 0
        ∧ session_delta_s st.session_start now % 60 = 0
        ∧ session_delta_s st.session_start now ≠ st.last_logged →
        heartbeatStep st now
          = ({ st with last_logged := session_delta_s st.session_start now },
             [MuninEvent.packet 2 (session_delta_s st.session_start now) st.face]))
      ∧ (¬(session_delta_s st.session_start now ≠ 0
            ∧ session_delta_s st.session_start now % 60 = 0
            ∧ session_delta_s st.session_start now ≠ st.last_logged) →
        heartbeatStep st now = (st, [])))
    ∧ (∀ (st : SettleState) (now : ℤ) (ax ay az : ℚ) (ok : Bool),
        (settleStep st now ax ay az ok).1.last_logged = st.last_logged)
    ∧ (runSettle ⟨1, 1, 0, 0, 0⟩
      [⟨5000, 1, 0, 0, true⟩, ⟨10000, 1, 0, 0, true⟩,
       ⟨15000, 1, 0, 0, true⟩, ⟨20000, 1, 0, 0, true⟩,
       ⟨25000, 1, 0, 0, true⟩, ⟨30000, 1, 0, 0, true⟩,
       ⟨35000, 1, 0, 0, true⟩, ⟨40000, 1, 0, 0, true⟩,
       ⟨45000, 1, 0, 0, true⟩, ⟨50000, 1, 0, 0, true⟩,
       ⟨55000, 1, 0, 0, true⟩, ⟨60000, 1, 0, 0, true⟩,
       ⟨60180, 1, 0, 0, true⟩, ⟨65000, 1, 0, 0, true⟩,
       ⟨70000, 1, 0, 0, true⟩, ⟨75000, 1, 0, 0, true⟩,
       ⟨80000, 1, 0, 0, true⟩, ⟨85000, 1, 0, 0, true⟩,
       ⟨90000, 1, 0, 0, true⟩, ⟨95000, 1, 0, 0, true⟩,
       ⟨100000, 1, 0, 0, true⟩, ⟨105000, 1, 0, 0, true⟩,
       ⟨110000, 1, 0, 0, true⟩, ⟨115000, 1, 0, 0, true⟩,
       ⟨120000, 1, 0, 0, true⟩, ⟨120180, 1, 0, 0, true⟩,
       ⟨125000, 1, 0, 0, true⟩, ⟨130000, 1, 0, 0, true⟩,
       ⟨135000, 1, 0, 0, true⟩, ⟨140000, 1, 0, 0, true⟩,
       ⟨145000, 1, 0, 0, true⟩, ⟨150000, 1, 0, 0, true⟩,
       ⟨155000, 1, 0, 0, true⟩, ⟨160000, 1, 0, 0, true⟩,
       ⟨165000, 1, 0, 0, true⟩, ⟨170000, 1, 0, 0, true⟩,
       ⟨175000, 1, 0, 0, true⟩, ⟨180000, 1, 0, 0, true⟩,
       ⟨180180, 1, 0, 0, true⟩, ⟨185000, 1, 0, 0, true⟩]).2
      = [MuninEvent.packet 2 60 1, MuninEvent.packet 2 120 1,
         MuninEvent.packet 2 180 1] := by
  refine ⟨fun st now => ⟨fun h => ?_, fun h => ?_⟩,
    settleStep_last_logged, ?_⟩
  · obtain ⟨h1, h2, h3⟩ := h
    simp only [heartbeatStep]
    rw [if_pos ⟨h1, h2⟩, if_pos h3]
  · simp only [heartbeatStep]
    split_ifs with g1 g2
    · exact absurd ⟨g1.1, g1.2, g2⟩ h
    · rfl
    · rfl
  · simp +decide [runSettle, imuTick, settleStep, heartbeatStep,
      session_delta_s, face_from_avg_unit_x]

/-- Witness for C2: at session start 0, time 60000 ms, marker 0, the
heartbeat fires with elapsed 60 s; at marker already 60 it does not. -/
theorem spec_C2_witness :
    (session_delta_s 0 60000 ≠ 0 ∧ session_delta_s 0 60000 % 60 = 0
      ∧ session_delta_s 0 60000 ≠ 0) ∧
    heartbeatStep ⟨1, 1, 0, 0, 0⟩ 60000
      = (⟨1, 1, 0, 0, 60⟩, [MuninEvent.packet 2 60 1])
    ∧ heartbeatStep ⟨1, 1, 0, 0, 60⟩ 60000 = (⟨1, 1, 0, 0, 60⟩, []) :=
  ⟨⟨by decide, by decide, by decide⟩,
   (spec_C2.1 ⟨1, 1, 0, 0, 0⟩ 60000).1 ⟨by decide, by decide, by decide⟩,
   (spec_C2.1 ⟨1, 1, 0, 0, 60⟩ 60000).2 (by decide)⟩

/-- Counterexample for C2 as stated: the `last_logged` marker is a static
that is NOT reset when the session resets.  Run: session 1 heartbeats at
elapsed 60 s (marker becomes 60); ticks classified +Y (face 3) then commit
a face switch at t = 61800 ms, resetting `session_start`; at t = 121800 ms
the new session's elapsed time is exactly 60 s — a positive multiple of 60
not yet reported in this session — yet no heartbeat is emitted, because
the stale marker still equals 60. -/
theorem spec_C2_counterexample :
    (runSettle ⟨1, 1, 0, 0, 0⟩
      [⟨60000, 1, 0, 0, true⟩, ⟨60180, 0, 1, 0, true⟩,
       ⟨61800, 0, 1, 0, true⟩, ⟨121800, 0, 1, 0, true⟩]).2
      = [MuninEvent.packet 2 60 1, MuninEvent.faceNotify 3]
    ∧ (runSettle ⟨1, 1, 0, 0, 0⟩
      [⟨60000, 1, 0, 0, true⟩, ⟨60180, 0, 1, 0, true⟩,
       ⟨61800, 0, 1, 0, true⟩, ⟨121800, 0, 1, 0, true⟩]).1.session_start = 61800
    ∧ session_delta_s 61800 121800 = 60 := by
  refine ⟨?_, ?_, by decide⟩ <;>
    simp +decide [runSettle, imuTick, settleStep, heartbeatStep,
      session_delta_s, face_from_avg_unit_x, face_from_avg_unit_y]

/-! ## C3: a sustained disagreeing face commits exactly once -/

/-- Branch lemma: a non-ambiguous classification differing from both the
accepted face and the current candidate makes it the new candidate and
restarts the debounce window. -/
lemma settleStep_flip (st : SettleState) (now : ℤ) (ax ay az : ℚ) (ok : Bool)
    (d : ℕ) (hd : face_from_avg ax ay az = d) (h0 : d ≠ 0)
    (hface : d ≠ st.face) (hcand : d ≠ st.candidate) :
    settleStep st now ax ay az ok
      = ({ st with candidate := d, candidate_since := now }, []) := by
  simp only [settleStep, hd]
  rw [if_pos h0, if_pos hface, if_pos hcand]

/-- Branch lemma: while the candidate's debounce window is still open,
a tick re-classifying to the candidate changes nothing. -/
lemma settleStep_pending (st : SettleState) (now : ℤ) (ax ay az : ℚ) (ok : Bool)
    (hd : face_from_avg ax ay az = st.candidate) (h0 : st.candidate ≠ 0)
    (hne : st.candidate ≠ st.face)
    (hlt : ¬(now - st.candidate_since ≥ FACE_SETTLE_TIME_MS)) :
    settleStep st now ax ay az ok = (st, []) := by
  simp only [settleStep, hd]
  rw [if_pos h0, if_pos hne, if_neg (not_not_intro rfl), if_neg hlt]

/-- Branch lemma: once the candidate has been held for the settle duration,
the machine commits and emits one face-switch event. -/
lemma settleStep_commit (st : SettleState) (now : ℤ) (ax ay az : ℚ) (ok : Bool)
    (hd : face_from_avg ax ay az = st.candidate) (h0 : st.candidate ≠ 0)
    (hne : st.candidate ≠ st.face)
    (hge : now - st.candidate_since ≥ FACE_SETTLE_TIME_MS) :
    settleStep st now ax ay az ok
      = ({ st with face := st.candidate, session_start := now },
         [if ok then MuninEvent.faceNotify st.candidate
          else MuninEvent.packet 1 0 st.candidate]) := by
  simp only [settleStep, hd]
  rw [if_pos h0, if_pos hne, if_neg (not_not_intro rfl), if_pos hge]
  simp

/-- Branch lemma: a tick agreeing with the accepted face re-arms the
candidate to the accepted face and emits nothing. -/
lemma settleStep_stable (st : SettleState) (now : ℤ) (ax ay az : ℚ) (ok : Bool)
    (hd : face_from_avg ax ay az = st.face) (h0 : st.face ≠ 0) :
    settleStep st now ax ay az ok
      = ({ st with candidate := st.face, candidate_since := now }, []) := by
  simp only [settleStep, hd]
  rw [if_pos h0, if_neg (not_not_intro rfl)]

/-- Heartbeat events are never face-switch events. -/
lemma heartbeatStep_count (st : SettleState) (now : ℤ) :
    (heartbeatStep st now).2.countP (fun e => e.isFaceSwitch) = 0 := by
  simp only [heartbeatStep]
  split_ifs <;> simp [MuninEvent.isFaceSwitch]

/-- Running a concatenation of tick lists runs them in sequence. -/
lemma runSettle_append (xs ys : List SettleTick) : ∀ st : SettleState,
    runSettle st (xs ++ ys)
      = ((runSettle (runSettle st xs).1 ys).1,
         (runSettle st xs).2 ++ (runSettle (runSettle st xs).1 ys).2) := by
  induction xs with
  | nil => intro st; simp [runSettle]
  | cons t rest ih =>
    intro st
    simp only [List.cons_append, runSettle, List.append_eq]
    rw [ih]
    simp [List.append_assoc]

/-- Absorbing lemma: once the accepted face equals the constant (non-zero)
classification `f` of the input stream, the face never changes again and no
face-switch event is ever emitted. -/
lemma runSettle_absorbing (f : ℕ) (hf : f ≠ 0) (ticks : List SettleTick) :
    ∀ st : SettleState, st.face = f →
    (∀ t ∈ ticks, face_from_avg t.ax t.ay t.az = f) →
    (runSettle st ticks).1.face = f
    ∧ (runSettle st ticks).2.countP (fun e => e.isFaceSwitch) = 0 := by
  induction ticks with
  | nil => intro st hface _; simp [runSettle, hface]
  | cons t rest ih =>
    intro st hface h
    have ht : face_from_avg t.ax t.ay t.az = st.face :=
      (h t (by simp)).trans hface.symm
    have hstep := settleStep_stable st t.now t.ax t.ay t.az t.notifyOk ht
      (hface ▸ hf)
    simp only [runSettle, imuTick, hstep, List.nil_append]
    set st1 : SettleState :=
      { st with candidate := st.face, candidate_since := t.now } with hst1
    obtain ⟨f1, _, _, _⟩ := heartbeatStep_fields st1 t.now
    obtain ⟨g1, g2⟩ := ih (heartbeatStep st1 t.now).1 (f1.trans hface)
      (fun u hu => h u (List.mem_cons_of_mem _ hu))
    refine ⟨g1, ?_⟩
    simp [List.countP_append, heartbeatStep_count, g2]

/-- Pending lemma: with the candidate already set to the stream's constant
classification `f` (≠ 0, ≠ accepted face), either no tick reaches the
settle duration — then nothing changes and nothing is emitted — or some
tick does, and then the run ends with accepted face `f` having emitted
exactly one face-switch event. -/
lemma runSettle_pending (f : ℕ) (hf : f ≠ 0) (ticks : List SettleTick) :
    ∀ st : SettleState, st.candidate = f → st.face ≠ f →
    (∀ t ∈ ticks, face_from_avg t.ax t.ay t.az = f) →
    ((∀ t ∈ ticks, ¬(t.now - st.candidate_since ≥ FACE_SETTLE_TIME_MS)) →
      (runSettle st ticks).1.face = st.face
      ∧ (runSettle st ticks).1.candidate = f
      ∧ (runSettle st ticks).1.candidate_since = st.candidate_since
      ∧ (runSettle st ticks).2.countP (fun e => e.isFaceSwitch) = 0)
    ∧ ((∃ t ∈ ticks, t.now - st.candidate_since ≥ FACE_SETTLE_TIME_MS) →
      (runSettle st ticks).1.face = f
      ∧ (runSettle st ticks).2.countP (fun e => e.isFaceSwitch) = 1) := by
  induction ticks with
  | nil =>
    intro st hc hne _
    exact ⟨fun _ => by simp [runSettle, hc], fun hex => by simp at hex⟩
  | cons t rest ih =>
    intro st hc hne hcl
    have ht : face_from_avg t.ax t.ay t.az = st.candidate :=
      (hcl t (by simp)).trans hc.symm
    have h0 : st.candidate ≠ 0 := hc ▸ hf
    have hcf : st.candidate ≠ st.face := fun h => hne (h.symm.trans hc)
    have hclr := fun u hu => hcl u (List.mem_cons_of_mem _ hu)
    by_cases hsettle : t.now - st.candidate_since ≥ FACE_SETTLE_TIME_MS
    · -- the head tick commits
      have hstep := settleStep_commit st t.now t.ax t.ay t.az t.notifyOk ht h0
        hcf hsettle
      constructor
      · intro hall
        exact absurd hsettle (hall t (by simp))
      · intro _
        simp only [runSettle, imuTick, hstep]
        set st1 : SettleState :=
          { st with face := st.candidate, session_start := t.now } with hst1
        obtain ⟨f1, _, _, _⟩ := heartbeatStep_fields st1 t.now
        have hface1 : (heartbeatStep st1 t.now).1.face = f := by
          rw [f1, hst1]
          exact hc
        obtain ⟨g1, g2⟩ := runSettle_absorbing f hf rest
          (heartbeatStep st1 t.now).1 hface1 hclr
        refine ⟨g1, ?_⟩
        simp only [List.countP_append, heartbeatStep_count, g2]
        cases t.notifyOk <;>
          simp [List.countP_cons, MuninEvent.isFaceSwitch]
    · -- the head tick holds
      have hstep := settleStep_pending st t.now t.ax t.ay t.az t.notifyOk ht h0
        hcf hsettle
      simp only [runSettle, imuTick, hstep, List.nil_append]
      obtain ⟨f1, c1, s1, _⟩ := heartbeatStep_fields st t.now
      have hrec := ih (heartbeatStep st t.now).1 (c1.trans hc)
        (f1 ▸ hne) hclr
      constructor
      · intro hall
        obtain ⟨g1, g2, g3, g4⟩ := hrec.1 (fun u hu => by
          rw [s1]
          exact hall u (List.mem_cons_of_mem _ hu))
        refine ⟨g1.trans f1, g2, g3.trans s1, ?_⟩
        simp [List.countP_append, heartbeatStep_count, g4]
      · intro hex
        obtain ⟨u, hu, hus⟩ := hex
        have hu' : u ∈ rest := by
          rcases List.mem_cons.mp hu with h | h
          · exact absurd (h ▸ hus) hsettle
          · exact h
        obtain ⟨g1, g2⟩ := hrec.2 ⟨u, hu', by rw [s1]; exact hus⟩
        refine ⟨g1, ?_⟩
        simp [List.countP_append, heartbeatStep_count, g2]

/-- C3: starting from a quiescent state (candidate = accepted face) and a
stream classifying constantly to a non-zero face `f ≠` accepted, where some
later tick lies at least the settle duration after the first, the machine
ends with accepted face `f` and emits exactly one face-switch event; and
continuing the same input with any further `f`-classified ticks still
yields exactly one face-switch event in total. -/
theorem spec_C3 (st0 : SettleState) (f : ℕ) (t0 : SettleTick)
    (rest : List SettleTick) (hf : f ≠ 0) (hc : st0.candidate = st0.face)
    (hne : st0.face ≠ f)
    (hcl : ∀ t ∈ t0 :: rest, face_from_avg t.ax t.ay t.az = f)
    (hspan : ∃ t ∈ rest, t.now - t0.now ≥ FACE_SETTLE_TIME_MS) :
    (runSettle st0 (t0 :: rest)).1.face = f
    ∧ (runSettle st0 (t0 :: rest)).2.countP (fun e => e.isFaceSwitch) = 1
    ∧ ∀ more : List SettleTick,
        (∀ t ∈ more, face_from_avg t.ax t.ay t.az = f) →
        (runSettle st0 ((t0 :: rest) ++ more)).1.face = f
        ∧ (runSettle st0 ((t0 :: rest) ++ more)).2.countP
            (fun e => e.isFaceSwitch) = 1 := by
  have ht : face_from_avg t0.ax t0.ay t0.az = f := hcl t0 (by simp)
  have hcand : f ≠ st0.candidate := by
    rw [hc]
    exact fun h => hne h.symm
  have hstep := settleStep_flip st0 t0.now t0.ax t0.ay t0.az t0.notifyOk f ht
    hf (fun h => hne h.symm) hcand
  have hmain : (runSettle st0 (t0 :: rest)).1.face = f
      ∧ (runSettle st0 (t0 :: rest)).2.countP (fun e => e.isFaceSwitch) = 1 := by
    simp only [runSettle, imuTick, hstep, List.nil_append]
    set st1 : SettleState :=
      { st0 with candidate := f, candidate_since := t0.now } with hst1
    obtain ⟨f1, c1, s1, _⟩ := heartbeatStep_fields st1 t0.now
    have hrec := (runSettle_pending f hf rest (heartbeatStep st1 t0.now).1
      (c1.trans rfl) (by rw [f1]; exact hne)
      (fun u hu => hcl u (List.mem_cons_of_mem _ hu))).2
      (by
        obtain ⟨u, hu, hus⟩ := hspan
        exact ⟨u, hu, by rw [s1]; exact hus⟩)
    refine ⟨hrec.1, ?_⟩
    simp [List.countP_append, heartbeatStep_count, hrec.2]
  refine ⟨hmain.1, hmain.2, fun more hmore => ?_⟩
  rw [runSettle_append]
  obtain ⟨g1, g2⟩ := runSettle_absorbing f hf more
    (runSettle st0 (t0 :: rest)).1 hmain.1 hmore
  exact ⟨g1, by simp [List.countP_append, hmain.2, g2]⟩

/-- Witness for C3: from accepted face 1, two +Y-classified ticks 1600 ms
apart commit to face 3 with exactly one face-switch event, and a third
continuing tick adds none. -/
theorem spec_C3_witness :
    face_from_avg 0 1 0 = 3
    ∧ (runSettle ⟨1, 1, 0, 0, 0⟩
        [⟨0, 0, 1, 0, true⟩, ⟨1600, 0, 1, 0, true⟩]).1.face = 3
    ∧ (runSettle ⟨1, 1, 0, 0, 0⟩
        [⟨0, 0, 1, 0, true⟩, ⟨1600, 0, 1, 0, true⟩]).2.countP
          (fun e => e.isFaceSwitch) = 1
    ∧ (runSettle ⟨1, 1, 0, 0, 0⟩
        ([⟨0, 0, 1, 0, true⟩, ⟨1600, 0, 1, 0, true⟩]
          ++ [⟨1800, 0, 1, 0, true⟩])).2.countP
          (fun e => e.isFaceSwitch) = 1 :=
  have h := spec_C3 ⟨1, 1, 0, 0, 0⟩ 3 ⟨0, 0, 1, 0, true⟩
    [⟨1600, 0, 1, 0, true⟩] (by decide) rfl (by decide)
    (by intro t ht; fin_cases ht <;> exact face_from_avg_unit_y)
    ⟨⟨1600, 0, 1, 0, true⟩, by simp, by decide⟩
  ⟨face_from_avg_unit_y, h.1, h.2.1,
   (h.2.2 [⟨1800, 0, 1, 0, true⟩]
     (by intro t ht; fin_cases ht <;> exact face_from_avg_unit_y)).2⟩

/-! ## C5: dominant-axis classification with ambiguity rejection -/

/-- C5: writing `m1` for the largest of the three absolute axis values and
`m2` for the second largest, the classifier returns 0 whenever
`m1 < IMU_MIN_AXIS_G` (0.55) or `m1 - m2 < IMU_AXIS_MARGIN_G` (0.18);
otherwise it returns the id of the dominant axis with its sign via the
fixed table X+ 1, X- 2, Y+ 3, Y- 4, Z+ 5, Z- 6.  In particular
(0.9, 0.05, 0.02) classifies to the +X face (1) and (0.6, 0.5, 0.1)
classifies to 0.  (The second largest of three values is
`max (min |x| |y|) (min (max |x| |y|) |z|)`.) -/
theorem spec_C5 :
    (∀ x y z : ℚ,
      ((max |x| (max |y| |z|) < IMU_MIN_AXIS_G
        ∨ max |x| (max |y| |z|)
            - max (min |x| |y|) (min (max |x| |y|) |z|) < IMU_AXIS_MARGIN_G) →
        face_from_avg x y z = 0)
      ∧ (IMU_MIN_AXIS_G ≤ max |x| (max |y| |z|) →
         IMU_AXIS_MARGIN_G ≤ max |x| (max |y| |z|)
            - max (min |x| |y|) (min (max |x| |y|) |z|) →
          (|x| = max |x| (max |y| |z|) →
            face_from_avg x y z = if 0 < x then 1 else 2)
          ∧ (|y| = max |x| (max |y| |z|) →
            face_from_avg x y z = if 0 < y then 3 else 4)
          ∧ (|z| = max |x| (max |y| |z|) →
            face_from_avg x y z = if 0 < z then 5 else 6)))
    ∧ face_from_avg (9/10) (1/20) (1/50) = 1
    ∧ face_from_avg (3/5) (1/2) (1/10) = 0 := by
  refine ⟨fun x y z => ?_,
    by norm_num [face_from_avg, IMU_MIN_AXIS_G, IMU_AXIS_MARGIN_G, abs_of_pos],
    by norm_num [face_from_avg, IMU_MIN_AXIS_G, IMU_AXIS_MARGIN_G, abs_of_pos]⟩
  have hmg : (0:ℚ) < IMU_AXIS_MARGIN_G := by norm_num [IMU_AXIS_MARGIN_G]
  simp only [face_from_avg]
  by_cases hba : |y| > |x|
  · simp only [if_pos hba]
    by_cases hcb : |z| > |y|
    · -- |z| strictly largest via the second comparison: max1 = |z|, max2 = |y|
      simp only [if_pos hcb]
      have hm1 : max |x| (max |y| |z|) = |z| := by
        simp only [max_def]; split_ifs <;> linarith
      have hm2 : max (min |x| |y|) (min (max |x| |y|) |z|) = |y| := by
        simp only [max_def, min_def]; split_ifs <;> linarith
      rw [hm1, hm2]
      constructor
      · intro h
        by_cases g1 : |z| < IMU_MIN_AXIS_G
        · rw [if_pos g1]
        · rw [if_neg g1, if_pos (h.resolve_left g1)]
      · intro h1 h2
        rw [if_neg (not_lt.mpr h1), if_neg (not_lt.mpr h2)]
        refine ⟨fun hx => by exfalso; linarith,
                fun hy => by exfalso; linarith,
                fun _ => by norm_num⟩
    · -- |y| largest: max1 = |y|, idx = 1, max2 depends on |z| vs |x|
      simp only [if_neg hcb]
      by_cases hca : |z| > |x|
      · simp only [if_pos hca]
        have hm1 : max |x| (max |y| |z|) = |y| := by
          simp only [max_def]; split_ifs <;> linarith
        have hm2 : max (min |x| |y|) (min (max |x| |y|) |z|) = |z| := by
          simp only [max_def, min_def]; split_ifs <;> linarith
        rw [hm1, hm2]
        constructor
        · intro h
          by_cases g1 : |y| < IMU_MIN_AXIS_G
          · rw [if_pos g1]
          · rw [if_neg g1, if_pos (h.resolve_left g1)]
        · intro h1 h2
          rw [if_neg (not_lt.mpr h1), if_neg (not_lt.mpr h2)]
          refine ⟨fun hx => by exfalso; linarith,
                  fun _ => by norm_num,
                  fun hz => by exfalso; linarith⟩
      · simp only [if_neg hca]
        have hm1 : max |x| (max |y| |z|) = |y| := by
          simp only [max_def]; split_ifs <;> linarith
        have hm2 : max (min |x| |y|) (min (max |x| |y|) |z|) = |x| := by
          simp only [max_def, min_def]; split_ifs <;> linarith
        rw [hm1, hm2]
        constructor
        · intro h
          by_cases g1 : |y| < IMU_MIN_AXIS_G
          · rw [if_pos g1]
          · rw [if_neg g1, if_pos (h.resolve_left g1)]
        · intro h1 h2
          rw [if_neg (not_lt.mpr h1), if_neg (not_lt.mpr h2)]
          refine ⟨fun hx => by exfalso; linarith,
                  fun _ => by norm_num,
                  fun hz => by exfalso; linarith⟩
  · simp only [if_neg hba]
    by_cases hca : |z| > |x|
    · -- |z| beats |x| (≥ |y|): max1 = |z|, max2 = |x|
      simp only [if_pos hca]
      have hm1 : max |x| (max |y| |z|) = |z| := by
        simp only [max_def]; split_ifs <;> linarith
      have hm2 : max (min |x| |y|) (min (max |x| |y|) |z|) = |x| := by
        simp only [max_def, min_def]; split_ifs <;> linarith
      rw [hm1, hm2]
      constructor
      · intro h
        by_cases g1 : |z| < IMU_MIN_AXIS_G
        · rw [if_pos g1]
        · rw [if_neg g1, if_pos (h.resolve_left g1)]
      · intro h1 h2
        rw [if_neg (not_lt.mpr h1), if_neg (not_lt.mpr h2)]
        refine ⟨fun hx => by exfalso; linarith,
                fun hy => by exfalso; linarith,
                fun _ => by norm_num⟩
    · -- |x| largest: max1 = |x|, idx = 0, max2 depends on |z| vs |y|
      simp only [if_neg hca]
      by_cases hcb : |z| > |y|
      · simp only [if_pos hcb]
        have hm1 : max |x| (max |y| |z|) = |x| := by
          simp only [max_def]; split_ifs <;> linarith
        have hm2 : max (min |x| |y|) (min (max |x| |y|) |z|) = |z| := by
          simp only [max_def, min_def]; split_ifs <;> linarith
        rw [hm1, hm2]
        constructor
        · intro h
          by_cases g1 : |x| < IMU_MIN_AXIS_G
          · rw [if_pos g1]
          · rw [if_neg g1, if_pos (h.resolve_left g1)]
        · intro h1 h2
          rw [if_neg (not_lt.mpr h1), if_neg (not_lt.mpr h2)]
          refine ⟨fun _ => by norm_num,
                  fun hy => by exfalso; linarith,
                  fun hz => by exfalso; linarith⟩
      · simp only [if_neg hcb]
        have hm1 : max |x| (max |y| |z|) = |x| := by
          simp only [max_def]; split_ifs <;> linarith
        have hm2 : max (min |x| |y|) (min (max |x| |y|) |z|) = |y| := by
          simp only [max_def, min_def]; split_ifs <;> linarith
        rw [hm1, hm2]
        constructor
        · intro h
          by_cases g1 : |x| < IMU_MIN_AXIS_G
          · rw [if_pos g1]
          · rw [if_neg g1, if_pos (h.resolve_left g1)]
        · intro h1 h2
          rw [if_neg (not_lt.mpr h1), if_neg (not_lt.mpr h2)]
          refine ⟨fun _ => by norm_num,
                  fun hy => by exfalso; linarith,
                  fun hz => by exfalso; linarith⟩

/-- Witness for C5: the zero vector is ambiguous (weak signal), and the
unit +X vector is dominant and classifies to face 1. -/
theorem spec_C5_witness :
    (max |(0:ℚ)| (max |(0:ℚ)| |(0:ℚ)|) < IMU_MIN_AXIS_G
      ∨ max |(0:ℚ)| (max |(0:ℚ)| |(0:ℚ)|)
          - max (min |(0:ℚ)| |(0:ℚ)|) (min (max |(0:ℚ)| |(0:ℚ)|) |(0:ℚ)|)
          < IMU_AXIS_MARGIN_G)
    ∧ face_from_avg 0 0 0 = 0
    ∧ IMU_MIN_AXIS_G ≤ max |(1:ℚ)| (max |(0:ℚ)| |(0:ℚ)|)
    ∧ face_from_avg 1 0 0 = 1 := by
  have hamb : max |(0:ℚ)| (max |(0:ℚ)| |(0:ℚ)|) < IMU_MIN_AXIS_G
      ∨ max |(0:ℚ)| (max |(0:ℚ)| |(0:ℚ)|)
          - max (min |(0:ℚ)| |(0:ℚ)|) (min (max |(0:ℚ)| |(0:ℚ)|) |(0:ℚ)|)
          < IMU_AXIS_MARGIN_G :=
    Or.inl (by norm_num [IMU_MIN_AXIS_G])
  have h1 : IMU_MIN_AXIS_G ≤ max |(1:ℚ)| (max |(0:ℚ)| |(0:ℚ)|) := by
    norm_num [IMU_MIN_AXIS_G]
  have h2 : IMU_AXIS_MARGIN_G ≤ max |(1:ℚ)| (max |(0:ℚ)| |(0:ℚ)|)
      - max (min |(1:ℚ)| |(0:ℚ)|) (min (max |(1:ℚ)| |(0:ℚ)|) |(0:ℚ)|) := by
    norm_num [IMU_AXIS_MARGIN_G]
  have hx : |(1:ℚ)| = max |(1:ℚ)| (max |(0:ℚ)| |(0:ℚ)|) := by norm_num
  exact ⟨hamb, (spec_C5.1 0 0 0).1 hamb, h1,
    ((((spec_C5.1 1 0 0).2 h1 h2).1 hx).trans (by norm_num))⟩

/-! ## C10: the accepted face is always in 1..6 -/

/-- The classifier never returns an id above 6. -/
lemma face_from_avg_le_six (x y z : ℚ) : face_from_avg x y z ≤ 6 := by
  simp only [face_from_avg]
  split_ifs <;> norm_num

/-- The settle step keeps the accepted face in 1..6: the face only changes
at a commit, whose guard forces the committed candidate to equal a non-zero
classifier output. -/
lemma settleStep_face_mem (st : SettleState) (now : ℤ) (ax ay az : ℚ)
    (ok : Bool) (h1 : 1 ≤ st.face) (h6 : st.face ≤ 6) :
    1 ≤ (settleStep st now ax ay az ok).1.face
    ∧ (settleStep st now ax ay az ok).1.face ≤ 6 := by
  have hle := face_from_avg_le_six ax ay az
  simp only [settleStep]
  split_ifs <;> simp_all <;> omega

/-- One full classified tick keeps the accepted face in 1..6. -/
lemma imuTick_face_mem (st : SettleState) (now : ℤ) (ax ay az : ℚ) (ok : Bool)
    (h1 : 1 ≤ st.face) (h6 : st.face ≤ 6) :
    1 ≤ (imuTick st now ax ay az ok).1.face
    ∧ (imuTick st now ax ay az ok).1.face ≤ 6 := by
  simp only [imuTick]
  obtain ⟨hf, _, _, _⟩ :=
    heartbeatStep_fields (settleStep st now ax ay az ok).1 now
  rw [hf]
  exact settleStep_face_mem st now ax ay az ok h1 h6

/-- One `munin_imu_update` call keeps the accepted face in 1..6. -/
lemma munin_imu_update_face_mem (st : ImuState) (now : ℤ)
    (reading : Option (ℚ × ℚ × ℚ)) (ok : Bool)
    (h1 : 1 ≤ st.settle.face) (h6 : st.settle.face ≤ 6) :
    1 ≤ (munin_imu_update st now reading ok).1.settle.face
    ∧ (munin_imu_update st now reading ok).1.settle.face ≤ 6 := by
  simp only [munin_imu_update]
  split_ifs with g
  · exact ⟨h1, h6⟩
  · cases reading with
    | none => exact ⟨h1, h6⟩
    | some r =>
      obtain ⟨x, y, z⟩ := r
      simp only []
      exact imuTick_face_mem _ _ _ _ _ _ h1 h6

/-- Any number of update calls keeps the accepted face in 1..6. -/
lemma runImu_face_mem (calls : List ImuCall) :
    ∀ st : ImuState, 1 ≤ st.settle.face → st.settle.face ≤ 6 →
    1 ≤ (runImu st calls).1.settle.face
    ∧ (runImu st calls).1.settle.face ≤ 6 := by
  induction calls with
  | nil => intro st h1 h6; exact ⟨h1, h6⟩
  | cons c rest ih =>
    intro st h1 h6
    obtain ⟨g1, g6⟩ := munin_imu_update_face_mem st c.now c.reading c.notifyOk h1 h6
    simpa only [runImu] using
      ih (munin_imu_update st c.now c.reading c.notifyOk).1 g1 g6

/-- Initialisation puts the accepted face in 1..6 (ambiguous boot readings
fall back to face 6). -/
lemma munin_imu_init_face_mem (fx fy fz : ℚ) (now : ℤ) :
    1 ≤ (munin_imu_init fx fy fz now).settle.face
    ∧ (munin_imu_init fx fy fz now).settle.face ≤ 6 := by
  simp only [munin_imu_init]
  split_ifs with g
  · exact ⟨by norm_num, by norm_num⟩
  · exact ⟨by omega, face_from_avg_le_six _ _ _⟩

/-- C10: after `munin_imu_init` and any sequence of `munin_imu_update`
calls — with arbitrary readings, failures and times — the face returned by
`munin_imu_get_current_face` is in 1..6 and never 0; and when the boot-time
classification of the seeded window's average is ambiguous (0), the
accepted face is forced to 6. -/
theorem spec_C10 (fx fy fz : ℚ) (now : ℤ) (calls : List ImuCall) :
    (1 ≤ munin_imu_get_current_face (runImu (munin_imu_init fx fy fz now) calls).1
    ∧ munin_imu_get_current_face (runImu (munin_imu_init fx fy fz now) calls).1 ≤ 6)
    ∧ (face_from_avg (imu_get_average (munin_imu_init fx fy fz now).window).1
         (imu_get_average (munin_imu_init fx fy fz now).window).2.1
         (imu_get_average (munin_imu_init fx fy fz now).window).2.2 = 0 →
       (munin_imu_init fx fy fz now).settle.face = 6) := by
  constructor
  · obtain ⟨h1, h6⟩ := munin_imu_init_face_mem fx fy fz now
    exact runImu_face_mem calls (munin_imu_init fx fy fz now) h1 h6
  · intro h
    simp only [munin_imu_init] at h ⊢
    rw [if_pos h]

/-- Witness for C10: with an all-zero boot reading the seeded window's
average classifies to 0, the accepted face is forced to 6, and it stays in
range with no update calls. -/
theorem spec_C10_witness :
    face_from_avg (imu_get_average (munin_imu_init 0 0 0 42).window).1
      (imu_get_average (munin_imu_init 0 0 0 42).window).2.1
      (imu_get_average (munin_imu_init 0 0 0 42).window).2.2 = 0
    ∧ (munin_imu_init 0 0 0 42).settle.face = 6
    ∧ 1 ≤ munin_imu_get_current_face (runImu (munin_imu_init 0 0 0 42) []).1 := by
  have h0 : face_from_avg (imu_get_average (munin_imu_init 0 0 0 42).window).1
      (imu_get_average (munin_imu_init 0 0 0 42).window).2.1
      (imu_get_average (munin_imu_init 0 0 0 42).window).2.2 = 0 := by
    norm_num [munin_imu_init, SmoothWindow.init, imu_add_sample,
      imu_get_average, face_from_avg, IMU_MIN_AXIS_G, IMU_SMOOTH_WINDOW]
  exact ⟨h0, (spec_C10 0 0 0 42 []).2 h0, (spec_C10 0 0 0 42 []).1.1⟩
